import Mathlib

/-!
Verification of the PostDoc / runesmith documentation pipeline.

This file gives a shallow embedding, in Lean 4, of the parts of the
repository that the specification's claims talk about:

* `src/runesmith/src/runesmith/llm.py` — the model registry
  (`PROVIDER_MODELS`), `unwrap_markdown_block`, `get_context_window`,
  `count_tokens`, `check_context_window`, `build_instruction`;
* `src/runesmith/src/runesmith/crawler.py` — `is_ignored`,
  `find_extensions`, `collect_code_chunks`;
* `src/runesmith/src/runesmith/cli.py` — `generate_from_config`, the
  two-stage chunk-and-merge orchestrator, embedded as a trace of events;
* `src/core/llm.py` — the legacy `build_instruction` variant that guards
  the read with `is_within_directory`.

Python strings are modelled as Lean `String`s, with the relevant Python
primitives (`str.splitlines`, `str.strip`, single-character
`str.replace`, `pathlib.PurePath.suffix`, `"sep".join`) re-implemented
character-faithfully below.  Filesystem state and the external
collaborators (the tiktoken tokenizer, the pathspec ignore matcher, the
provider SDKs) are passed in explicitly as data, so every definition is
executable.  Python exceptions are modelled with `Except`/`Option`.
-/

set_option maxRecDepth 16384

/-! ## Python string primitives -/

/-- The characters `str.splitlines` treats as line boundaries:
LF, CR (CRLF counts as one boundary), VT, FF, FS, GS, RS, NEL, LINE
SEPARATOR and PARAGRAPH SEPARATOR. -/
def isLineBreakChar (c : Char) : Bool :=
  c = '\n' || c = '\r' || c = '\x0b' || c = '\x0c' ||
  c = '\x1c' || c = '\x1d' || c = '\x1e' || c = '\x85' ||
  c = '\u2028' || c = '\u2029'

/-- Characters stripped by Python `str.strip()` (the `str.isspace`
characters). -/
def isPySpace (c : Char) : Bool :=
  c = ' ' || c = '\t' || c = '\n' || c = '\r' || c = '\x0b' || c = '\x0c' ||
  c = '\x1c' || c = '\x1d' || c = '\x1e' || c = '\x85' || c = '\xa0' ||
  c = '\u1680' || (0x2000 ≤ c.toNat && c.toNat ≤ 0x200a) ||
  c = '\u2028' || c = '\u2029' || c = '\u202f' || c = '\u205f' || c = '\u3000'

/-- Worker for `str.splitlines`: walks the characters, accumulating the
current line (reversed) in `acc`; CRLF is consumed as a single boundary;
a trailing line without a final newline is emitted, a trailing newline
does not produce an empty final line. -/
def slAux : List Char → List Char → List (List Char)
  | [], acc => if acc.isEmpty then [] else [acc.reverse]
  | c :: rest, acc =>
    if isLineBreakChar c then
      acc.reverse ::
        (match rest with
         | d :: rest2 =>
           if c == '\r' && d == '\n' then slAux rest2 [] else slAux (d :: rest2) []
         | [] => [])
    else slAux rest (c :: acc)

/-- Python `text.splitlines()`. -/
def pySplitlines (s : String) : List String :=
  (slAux s.data []).map (fun cs => String.mk cs)

/-- Python `line.strip()` on the character list. -/
def pyStripL (cs : List Char) : List Char :=
  ((cs.dropWhile isPySpace).reverse.dropWhile isPySpace).reverse

/-- Python `line.strip()`. -/
def pyStrip (s : String) : String :=
  String.mk (pyStripL s.data)

/-- Python `sep.join(ls)`. -/
def joinWith (sep : String) : List String → String
  | [] => ""
  | [l] => l
  | l :: rest => l ++ sep ++ joinWith sep rest

/-- Python single-character `s.replace(a, b)` (for one-character
patterns `str.replace` is exactly a per-character substitution). -/
def pyReplaceChar (s : String) (a b : Char) : String :=
  String.mk (s.data.map (fun c => if c = a then b else c))

/-- Python `s.lower()` restricted to ASCII (all strings the pipeline
lowercases — document-type names, provider keys — are ASCII). -/
def pyLower (s : String) : String :=
  String.mk (s.data.map Char.toLower)

/-- Index of the last occurrence of `c` in `cs`, if any. -/
def lastIdxOf (c : Char) (cs : List Char) : Option Nat :=
  ((cs.enum.filter (fun p => p.2 = c)).map (fun p => p.1)).getLast?

/-- Python `pathlib.PurePath.suffix` of a file name: the substring from the
last dot, provided that dot is neither the first nor the last
character; otherwise the empty string. -/
def pySuffix (name : String) : String :=
  match lastIdxOf '.' name.data with
  | none => ""
  | some i =>
    if 0 < i ∧ i < name.data.length - 1 then String.mk (name.data.drop i) else ""

/-- Returns true when the string contains no `str.splitlines` boundary
character, i.e. it is a single line. -/
def lineBreakFree (s : String) : Bool :=
  s.data.all (fun c => !isLineBreakChar c)

/-- Lexicographic comparison of character lists by code point, matching
Python string `<`. -/
def charListLt : List Char → List Char → Bool
  | [], [] => false
  | [], _ :: _ => true
  | _ :: _, [] => false
  | a :: as, b :: bs =>
    if a.toNat < b.toNat then true
    else if b.toNat < a.toNat then false
    else charListLt as bs

/-- Python string `<`. -/
def pyStrLt (a b : String) : Bool :=
  charListLt a.data b.data

/-- Insert into a sorted duplicate-free list, keeping it sorted and
duplicate-free (used to model Python `sorted(set(...))`). -/
def insertSortedDedup (x : String) : List String → List String
  | [] => [x]
  | y :: ys =>
    if x = y then y :: ys
    else if pyStrLt x y then x :: y :: ys
    else y :: insertSortedDedup x ys

/-- Python `sorted(set(xs))`. -/
def sortedDedup (xs : List String) : List String :=
  xs.foldl (fun acc x => insertSortedDedup x acc) []

/-- Boolean substring test: does `needle` occur inside `hay`? -/
def leadsWith : List Char → List Char → Bool
  | [], _ => true
  | _ :: _, [] => false
  | a :: as, b :: bs => a = b && leadsWith as bs

/-- Tests whether `needle` occurs as a contiguous substring of `hay`. -/
def containsSub (needle : List Char) : List Char → Bool
  | [] => needle.isEmpty
  | c :: rest => leadsWith needle (c :: rest) || containsSub needle rest

/-- Python `needle in text` for strings. -/
def pyStrContains (text needle : String) : Bool :=
  containsSub needle.data text.data

/-! ## `runesmith/llm.py` — model registry and context windows -/

/-- The `PROVIDER_MODELS` dict of `runesmith/llm.py` (lines 26–53):
provider name to a dict from model name to context-window size.  The
commented-out o3/o4-mini entries are absent, as in the source. -/
def PROVIDER_MODELS : List (String × List (String × Nat)) :=
  [("OpenAI",
    [("gpt-4.1", 1000000), ("gpt-4o", 128000), ("gpt-4.5", 128000),
     ("gpt-4-turbo", 128000)]),
   ("AzureOpenAI",
    [("gpt-4o", 128000), ("gpt-4-turbo", 128000), ("gpt-4o-mini", 128000)]),
   ("Anthropic",
    [("claude-3.7-sonnet", 200000), ("claude-3.5-haiku", 200000),
     ("claude-3-opus", 200000)]),
   ("Gemini",
    [("gemini-2.5-pro-preview-03-25", 1000000),
     ("gemini-2.5-flash-preview-04-17", 1000000),
     ("gemini-2.0-flash", 1000000), ("gemini-1.5-pro", 2000000)])]

/-- Python `d[k]` on an association-list dict: `.ok` the value, or a
`KeyError` if the key is absent. -/
def dictGet {α : Type} (k : String) (d : List (String × α)) : Except String α :=
  match d.find? (fun p => p.1 = k) with
  | some p => .ok p.2
  | none => .error ("KeyError: " ++ k)

/-- Python `n["context_window"]` where `n` is an `int`: always raises
`TypeError`, since integers are not subscriptable.  This is the
expression `PROVIDER_MODELS[provider][model]["context_window"]` actually
evaluates after the two dict lookups succeed. -/
def pyIntSubscript (n : Nat) (k : String) : Except String Nat :=
  .error ("TypeError: \x27int\x27 object is not subscriptable (" ++
    toString n ++ "[" ++ k ++ "])")

/-- Result of `get_context_window`: a finite window, or `float("inf")`
meaning "no limit known". -/
inductive CtxWin
  | window (n : Nat)
  | unbounded
  deriving DecidableEq, Repr

/-- Embedding of `get_context_window` (`runesmith/llm.py` lines 73–81): evaluates
`PROVIDER_MODELS[provider][model]["context_window"]` step by step under
`try/except Exception`, returning `float("inf")` as soon as any step
raises. -/
def get_context_window (provider model : String) : CtxWin :=
  match dictGet provider PROVIDER_MODELS with
  | .error _ => .unbounded
  | .ok d =>
    match dictGet model d with
    | .error _ => .unbounded
    | .ok n =>
      match pyIntSubscript n "context_window" with
      | .error _ => .unbounded
      | .ok v => .window v

/-- The registered context-window size of a (provider, model) pair:
the two dict lookups alone, without the stray `["context_window"]`
subscript.  This is what the registry actually stores. -/
def registeredWindow (provider model : String) : Except String Nat := do
  let d ← dictGet provider PROVIDER_MODELS
  dictGet model d

/-! ## `runesmith/llm.py` — `unwrap_markdown_block` -/

/-- The guard of `unwrap_markdown_block` (`runesmith/llm.py` lines
63–67): at least two lines, first line strips to ```` ```markdown ````,
last line strips to ```` ``` ````. -/
def unwrapCond (lines : List String) : Bool :=
  decide (2 ≤ lines.length) &&
  (pyStrip (lines.headD "") == "```markdown") &&
  (pyStrip (lines.getLastD "") == "```")

/-- Embedding of `unwrap_markdown_block` (`runesmith/llm.py` lines 56–70): split the
text into lines; if the fence guard holds, rejoin `lines[1:-1]` with
newlines; otherwise return the text unchanged. -/
def unwrap_markdown_block (text : String) : String :=
  let lines := pySplitlines text
  if unwrapCond lines then joinWith "\n" ((lines.drop 1).dropLast)
  else text

/-! ## `runesmith/llm.py` — token counting (tiktoken as a collaborator)

`count_tokens` calls into the external `tiktoken` library.  The library
is modelled as an explicit interface value: `encodingForModel` returns
the encoding name registered for a model, or `none` when
`tiktoken.encoding_for_model` would raise (the fallback path);
`encodeOrdinary` is the total tokenization of a text with every special
marker treated as ordinary text — which is precisely what
`encode(text, disallowed_special=())` computes; `specialTokens` lists an
encoding's reserved markers. -/

structure Tiktoken where
  encodingForModel : String → Option String
  encodeOrdinary : String → String → List Nat
  specialTokens : String → List String

/-- Model of `Encoding.encode(text, disallowed_special=ds)`: raises `ValueError`
when the text contains one of the disallowed special markers, otherwise
tokenizes the whole text with special markers treated as ordinary
text. -/
def tiktokenEncode (tk : Tiktoken) (encName text : String)
    (disallowedSpecial : List String) : Except String (List Nat) :=
  if disallowedSpecial.any (fun m => pyStrContains text m) then
    .error "ValueError: Encountered text corresponding to disallowed special token"
  else
    .ok (tk.encodeOrdinary encName text)

/-- Embedding of `count_tokens` (`runesmith/llm.py` lines 84–97): try the
model-specific encoding, fall back to `o200k_base` (reporting the
fallback) when `encoding_for_model` raises, then count the tokens of the
text with `disallowed_special=()`. -/
def count_tokens (tk : Tiktoken) (text model : String) :
    Except String (Nat × Option String) :=
  let p : String × Option String :=
    match tk.encodingForModel model with
    | some e => (e, none)
    | none => ("o200k_base", some "o200k_base")
  (tiktokenEncode tk p.1 text []).map (fun toks => (toks.length, p.2))

/-- Embedding of `check_context_window` (`runesmith/llm.py` lines 100–107): the
context window of the pair, and the token count of
`instruct + "\n" + prompt`. -/
def check_context_window (tk : Tiktoken) (provider model instruct prompt : String) :
    Except String (Nat × CtxWin × Option String) := do
  let cw := get_context_window provider model
  let (tc, fb) ← count_tokens tk (instruct ++ "\n" ++ prompt) model
  .ok (tc, cw, fb)

/-! ## `runesmith/llm.py` — `build_instruction` -/

/-- The filesystem as seen by `build_instruction`: path existence, file
contents, and resolved containment (`is_within_directory`, which the
legacy `core/llm.py` variant consults). -/
structure FS where
  pathExists : String → Bool
  readText : String → String
  within : String → String → Bool

/-- The output artifact filename for a document type:
`f"{doc_type.lower().replace(' ', '_')}.md"`. -/
def docFileName (doc_type : String) : String :=
  pyReplaceChar (pyLower doc_type) ' ' '_' ++ ".md"

/-- The fixed update-instruction text of `build_instruction`
(`runesmith/llm.py` lines 246–248, three adjacent string literals). -/
def updateHeader : String :=
  "The documentation already exists. Update, proofread, and tweak it, making only minimal, safe changes. " ++
  "Preserve all critical information or replace with equivalent, updated information. " ++
  "IMPORTANT: do NOT introduce major rewrites or alter content unnecessarily."

/-- The fresh writer-persona instruction of `build_instruction`
(`runesmith/llm.py` lines 253–256). -/
def personaHeader (doc_type custom_instruct : String) : String :=
  "You are an expert coder and explainer that writes high-quality " ++
  doc_type ++ " for developers. " ++ custom_instruct

/-- Embedding of `build_instruction` (`runesmith/llm.py` lines 230–256): compute the
artifact path under `output_dir`; if it exists, read it and return the
update instruction followed by the custom instructions and the existing
content; otherwise return the writer persona followed by the custom
instructions.  Note: this variant never consults
`is_within_directory`. -/
def build_instruction (fs : FS)
    (doc_type custom_instruct output_dir code_path : String) : String :=
  let out_file := output_dir ++ "/" ++ docFileName doc_type
  if fs.pathExists out_file then
    updateHeader ++ custom_instruct ++ fs.readText out_file
  else
    personaHeader doc_type custom_instruct

/-- The legacy `build_instruction` of `core/llm.py` (lines 181–210):
same shape, but the read is guarded — when the artifact resolves to a
path inside `code_path`, `existing_doc` stays empty (the update
instruction is still returned). -/
def core_build_instruction (fs : FS)
    (doc_type custom_instruct output_dir code_path : String) : String :=
  let out_file := output_dir ++ "/" ++ docFileName doc_type
  if fs.pathExists out_file then
    updateHeader ++ custom_instruct ++
      (if fs.within out_file code_path then "" else fs.readText out_file)
  else
    personaHeader doc_type custom_instruct

/-! ## `runesmith/crawler.py` — scanner

The directory walk `root.rglob("*")` is modelled as an explicit list of
`FileEntry` records in traversal order.  Each record carries the data
the scanner inspects: the path components (`fp.parts`, which include the
root's own components), the path relative to the root
(`fp.relative_to(root).as_posix()`), the final component (`fp.name`),
whether the entry is a regular file, the display form `str(fp)`, and the
outcome of `fp.read_text(encoding="utf-8", errors="ignore")` — `.ok`
with the decoded text (decoding never fails, invalid bytes are
dropped), or `.error` with the OS error message when the file cannot be
opened at all. -/

instance {ε α : Type} [DecidableEq ε] [DecidableEq α] :
    DecidableEq (Except ε α) := fun x y =>
  match x, y with
  | .ok a, .ok b =>
    if h : a = b then isTrue (by rw [h])
    else isFalse (fun he => h (Except.ok.inj he))
  | .error a, .error b =>
    if h : a = b then isTrue (by rw [h])
    else isFalse (fun he => h (Except.error.inj he))
  | .ok _, .error _ => isFalse (fun he => by cases he)
  | .error _, .ok _ => isFalse (fun he => by cases he)

structure FileEntry where
  parts : List String
  rel : String
  name : String
  isFile : Bool
  display : String
  readResult : Except String String
  deriving DecidableEq, Repr

/-- A chunk: one file's root-relative path and content
(`{"path": str(fp.relative_to(root)), "content": text}`). -/
structure Chunk where
  path : String
  content : String
  deriving DecidableEq, Repr

/-- Embedding of `is_ignored` (`crawler.py` lines 17–24): no `.gitignore` matcher
means nothing is ignored; otherwise test the root-relative posix path
against the compiled matcher.  The matcher itself (pathspec
`gitwildmatch`) is an external collaborator, passed in as a
predicate. -/
def is_ignored (spec : Option (String → Bool)) (rel : String) : Bool :=
  match spec with
  | none => false
  | some m => m rel

/-- The sentinel-normalized extension: `fp.suffix or "(no extension)"`. -/
def pyExt (e : FileEntry) : String :=
  let s := pySuffix e.name
  if s = "" then "(no extension)" else s

/-- The blacklist-skip warning string of `crawler.py` line 64. -/
def blacklistWarning (e : FileEntry) : String :=
  "Skipping " ++ e.display ++ " (extension " ++ pyExt e ++ " not allowed)"

/-- The unreadable-file warning string of `crawler.py` line 71. -/
def readWarning (e : FileEntry) (msg : String) : String :=
  "Could not read " ++ e.display ++ ": " ++ msg

/-- The generator loop of `collect_code_chunks` (`crawler.py` lines
52–71).  `pending` is the mutable `warnings` list: it accumulates
across skipped files, is attached to the next yielded chunk, and is
cleared right after the yield.  The final component of the result is
whatever is still pending when the traversal ends — the caller never
sees it. -/
def collectGo (spec : Option (String → Bool)) (blacklist : List String)
    (pending : List String) :
    List FileEntry → List (Chunk × List String) × List String
  | [] => ([], pending)
  | e :: rest =>
    if ".git" ∈ e.parts then collectGo spec blacklist pending rest
    else if !e.isFile || is_ignored spec e.rel then
      collectGo spec blacklist pending rest
    else if blacklist ≠ [] ∧ pyExt e ∈ blacklist then
      collectGo spec blacklist (pending ++ [blacklistWarning e]) rest
    else
      match e.readResult with
      | .ok text =>
        let r := collectGo spec blacklist [] rest
        (({ path := e.rel, content := text }, pending) :: r.1, r.2)
      | .error msg =>
        collectGo spec blacklist (pending ++ [readWarning e msg]) rest

/-- Embedding of `collect_code_chunks` (`crawler.py` lines 45–72): the yielded
`(chunk, warnings)` pairs in order, plus the warnings left pending when
the iteration ends. -/
def collect_code_chunks (spec : Option (String → Bool))
    (blacklist : List String) (files : List FileEntry) :
    List (Chunk × List String) × List String :=
  collectGo spec blacklist [] files

/-- The warnings a caller iterating the generator actually sees: the
concatenation of the warning lists attached to the yielded chunks. -/
def surfacedWarnings (r : List (Chunk × List String) × List String) :
    List String :=
  (r.1.map (fun p => p.2)).flatten

/-- Every warning the scan produced: the surfaced ones followed by the
ones still pending (hence dropped) at the end of the iteration. -/
def recordedWarnings (r : List (Chunk × List String) × List String) :
    List String :=
  surfacedWarnings r ++ r.2

/-- A file entry passes all of the scanner's filters and yields a
chunk: not under `.git`, a regular file, not gitignore-matched, not
blacklisted, and readable. -/
def passesFilters (spec : Option (String → Bool)) (blacklist : List String)
    (e : FileEntry) : Bool :=
  !decide (".git" ∈ e.parts) && e.isFile && !is_ignored spec e.rel &&
  !decide (blacklist ≠ [] ∧ pyExt e ∈ blacklist) &&
  (match e.readResult with
   | .ok _ => true
   | .error _ => false)

/-- The warnings one file entry contributes as the loop visits it. -/
def warningsOf (spec : Option (String → Bool)) (blacklist : List String)
    (e : FileEntry) : List String :=
  if ".git" ∈ e.parts then []
  else if !e.isFile || is_ignored spec e.rel then []
  else if blacklist ≠ [] ∧ pyExt e ∈ blacklist then [blacklistWarning e]
  else
    match e.readResult with
    | .ok _ => []
    | .error msg => [readWarning e msg]

/-- Embedding of `find_extensions` (`crawler.py` lines 27–42): all non-ignored
regular files (note: `.git` is NOT excluded here), their
sentinel-normalized extensions, as `sorted(set(...))`. -/
def find_extensions (spec : Option (String → Bool))
    (files : List FileEntry) : List String :=
  let all_files := files.filter (fun e => e.isFile && !is_ignored spec e.rel)
  sortedDedup (all_files.map pyExt)

/-! ## `runesmith/cli.py` — the two-stage orchestrator

`generate_from_config` is embedded as a function producing the trace of
externally visible actions of one run: the warnings printed while
draining the scanner, every Generation Gateway call (with the exact
instruction and prompt strings), every cache-artifact write and every
final-artifact write.  The Generation Gateway itself is a collaborator,
passed in as a function `gw : instruction → prompt → raw response`; as
in `generate_docs`, each raw response goes through
`unwrap_markdown_block`.  The event type also has a constructor for a
Token Budget Oracle consultation (`check_context_window`), so that the
presence or absence of admission control is visible in the trace. -/

inductive Ev
  | warn (msg : String)
  | budgetCheck (stage unit : String)
  | genCall (instruct prompt : String)
  | cacheWrite (path content : String)
  | finalWrite (path content : String)
  deriving DecidableEq, Repr

/-- The validated configuration object (spec §6). -/
structure Config where
  provider : String
  model : String
  code_path : String
  output_dir : String
  blacklist : List String
  doc_types : List String
  custom_instructions : String

/-- The cache-artifact file name for a chunk
(`cli.py` line 205): `f"{chunk['path'].replace('/', '_').replace('.', '_')}.md"`. -/
def cache_doc_name (relPath : String) : String :=
  pyReplaceChar (pyReplaceChar relPath '/' '_') '.' '_' ++ ".md"

/-- The fixed per-chunk summarization instruction (`cli.py` lines
190–196; five adjacent string literals — the missing spaces at the
literal boundaries and the uninterpolated `\x7b\x27 \x27.join(doc_types)\x7d`
are in the source, which uses a plain string, not an f-string). -/
def summariseInstruct : String :=
  "You are a professional technical writer. Summarise and list the technical" ++
  "elements of this file. The reader is also an expert so priorities preserving details whilst" ++
  "condensing information." ++
  "Multiple of such summaries of individual files will be combined into " ++
  "\x7b\x27 \x27.join(doc_types)\x7d documentation files.\n"

/-- The per-chunk user prompt (`cli.py` line 200):
`f"\n# File: {chunk['path']}\n{chunk['content']}"`. -/
def chunkPrompt (ch : Chunk) : String :=
  "\n# File: " ++ ch.path ++ "\n" ++ ch.content

/-- The merge-stage user prompt (`cli.py` lines 220–222; the runs of
spaces come from the f-string's backslash line continuations, which keep
the next source line's indentation). -/
def mergePrompt (doc_type combined_draft : String) : String :=
  "You are a professional technical writer. Merge and organize " ++
  "            the following " ++ doc_type ++
  " drafts into a coherent document with clear structure, " ++
  "            no duplication, and polished transitions.\n\n" ++
  combined_draft

/-- Embedding of `generate_from_config` (`cli.py` lines 144–233) as a trace.  With no
document types requested the run aborts (`sys.exit(1)`).  Otherwise:
drain the scanner, printing each yielded warning list; for every chunk
issue one gateway call with the fixed summarization instruction and
`"\n# File: {path}\n{content}"`, and write the unwrapped result to the
chunk's cache artifact under `output_dir/cache_docs`; then for every
requested document type build the instruction via `build_instruction`,
join all retained summaries with blank lines, issue one gateway call
with the merge prompt, and write the unwrapped result to the final
artifact.  No call to `check_context_window` appears anywhere — the
trace contains no `budgetCheck` event. -/
def generate_from_config (fs : FS) (gw : String → String → String)
    (spec : Option (String → Bool)) (cfg : Config)
    (files : List FileEntry) : Except String (List Ev) :=
  if cfg.doc_types = [] then
    .error "No documentation types selected, exiting."
  else
    let scan := collect_code_chunks spec cfg.blacklist files
    let warnEvents := (surfacedWarnings scan).map Ev.warn
    let chunks := scan.1.map (fun p => p.1)
    let summaries := chunks.map
      (fun ch => unwrap_markdown_block (gw summariseInstruct (chunkPrompt ch)))
    let sumEvents := chunks.flatMap (fun ch =>
      [Ev.genCall summariseInstruct (chunkPrompt ch),
       Ev.cacheWrite (cfg.output_dir ++ "/cache_docs/" ++ cache_doc_name ch.path)
         (unwrap_markdown_block (gw summariseInstruct (chunkPrompt ch)))])
    let combined_draft := joinWith "\n\n" summaries
    let mergeEvents := cfg.doc_types.flatMap (fun dt =>
      let instr := build_instruction fs dt cfg.custom_instructions
        cfg.output_dir cfg.code_path
      let fp := mergePrompt dt combined_draft
      [Ev.genCall instr fp,
       Ev.finalWrite (cfg.output_dir ++ "/" ++ docFileName dt)
         (unwrap_markdown_block (gw instr fp))])
    .ok (warnEvents ++ sumEvents ++ mergeEvents)

/-- Is this event a Token Budget Oracle consultation? -/
def Ev.isBudgetCheck : Ev → Bool
  | .budgetCheck _ _ => true
  | _ => false

/-- Is this event a Generation Gateway call? -/
def Ev.isGenCall : Ev → Bool
  | .genCall _ _ => true
  | _ => false

/-! ## Claim C1 — `get_context_window` -/

/-- C1 (code evaluation): the claim says `get_context_window` returns
the registered integer for every (provider, model) pair in the registry
and the unbounded sentinel for pairs not present.  In the code the
expression `PROVIDER_MODELS[provider][model]["context_window"]`
subscripts the registered `int` with a string, which raises `TypeError`;
the `except Exception` then returns `float("inf")`.  So even for the
registered pair ("OpenAI", "gpt-4o"), whose registered window is 128000,
the function returns the unbounded sentinel — in fact it returns the
sentinel for every pair whatsoever, contradicting both the claim and the
function's own docstring. -/
theorem get_context_window_ignores_registry :
    registeredWindow "OpenAI" "gpt-4o" = .ok 128000 ∧
    get_context_window "OpenAI" "gpt-4o" = CtxWin.unbounded ∧
    (∀ provider model, get_context_window provider model = CtxWin.unbounded) := by
  refine ⟨by decide, by decide, fun provider model => ?_⟩
  unfold get_context_window
  cases hd : dictGet provider PROVIDER_MODELS with
  | error e => rfl
  | ok d =>
    cases hm : dictGet model d with
    | error e => simp [hm]
    | ok n => simp [hm, pyIntSubscript]

/-! ## Claim C2 — `build_instruction` and artifacts inside `code_path` -/

/-- A filesystem in which the Readme artifact `proj/readme.md` exists
with content `EXISTING_DOC`, and `output_dir = code_path = "proj"`, so
the artifact's resolved path lies inside `code_path` (the `within` field
records that containment, as `is_within_directory` would report). -/
def fsArtifactInsideCode : FS :=
  { pathExists := fun _ => true
    readText := fun _ => "EXISTING_DOC"
    within := fun _ _ => true }

/-- C2 (code evaluation): the claim (and the function's own docstring)
says that when the artifact exists but lies inside `code_path`, the file
is not read and the fresh writer-persona instruction is returned.  The
`runesmith/llm.py` variant branches on existence alone: with the
artifact inside `code_path` it still reads it and returns the update
instruction with the artifact text embedded.  The legacy `core/llm.py`
variant does skip the read, but still returns the update instruction
(with empty embedded content), not the writer persona. -/
theorem build_instruction_reads_artifact_inside_code_path :
    build_instruction fsArtifactInsideCode "Readme" "" "proj" "proj" =
      updateHeader ++ "EXISTING_DOC" ∧
    build_instruction fsArtifactInsideCode "Readme" "" "proj" "proj" ≠
      personaHeader "Readme" "" ∧
    core_build_instruction fsArtifactInsideCode "Readme" "" "proj" "proj" =
      updateHeader ∧
    core_build_instruction fsArtifactInsideCode "Readme" "" "proj" "proj" ≠
      personaHeader "Readme" "" := by
  refine ⟨rfl, by decide, by decide, by decide⟩

/-! ## Claim C10 — `count_tokens` totality -/

/-- The tokenizer interface is not degenerate: with a nonempty
`disallowed_special` set, `encode` does raise on text containing the
disallowed marker.  `count_tokens` avoids this only because it passes
`disallowed_special=()`. -/
theorem tiktokenEncode_raises_on_disallowed (tk : Tiktoken) :
    tiktokenEncode tk "o200k_base" "a <|endoftext|> b" ["<|endoftext|>"] =
      .error "ValueError: Encountered text corresponding to disallowed special token" := by
  have h : (["<|endoftext|>"].any
      (fun m => pyStrContains "a <|endoftext|> b" m)) = true := by decide
  simp [tiktokenEncode, h]

/-- C10: for every tokenizer state, text and model, `count_tokens`
returns a token count without raising.  The `try/except` around
`encoding_for_model` turns an unknown model into the `o200k_base`
fallback, and `encode(text, disallowed_special=())` treats every
reserved/special marker as ordinary text, so it cannot raise either —
in particular the universally quantified `text` includes every text
containing special markers.  The count is a `Nat`, hence
non-negative. -/
theorem count_tokens_never_raises (tk : Tiktoken) (text model : String) :
    ∃ n fb, count_tokens tk text model = .ok (n, fb) := by
  cases h : tk.encodingForModel model with
  | none =>
    exact ⟨(tk.encodeOrdinary "o200k_base" text).length, some "o200k_base",
      by simp [count_tokens, tiktokenEncode, h, Except.map]⟩
  | some e =>
    exact ⟨(tk.encodeOrdinary e text).length, none,
      by simp [count_tokens, tiktokenEncode, h, Except.map]⟩


/-! ## Line-splitting lemmas for `unwrap_markdown_block` -/

/-- Rebuilding a string from its characters is the identity. -/
theorem strMkData (s : String) : String.mk s.data = s := rfl

/-- String concatenation concatenates the character lists. -/
theorem strDataAppend (s t : String) : (s ++ t).data = s.data ++ t.data := rfl

/-- A non-boundary character is consumed into the accumulator. -/
theorem slAux_cons_nonbreak (c : Char) (rest acc : List Char)
    (hc : isLineBreakChar c = false) :
    slAux (c :: rest) acc = slAux rest (c :: acc) := by
  rw [slAux.eq_def]
  simp [hc]

/-- A newline emits the accumulated line and restarts. -/
theorem slAux_newline (rest acc : List Char) :
    slAux ('\n' :: rest) acc = acc.reverse :: slAux rest [] := by
  cases rest with
  | nil => simp [slAux, isLineBreakChar]
  | cons d rest2 => simp [slAux, isLineBreakChar]

/-- A boundary-free prefix is wholly absorbed into the accumulator. -/
theorem slAux_append_free (pre : List Char)
    (h : pre.all (fun c => !isLineBreakChar c) = true) (cs acc : List Char) :
    slAux (pre ++ cs) acc = slAux cs (pre.reverse ++ acc) := by
  induction pre generalizing acc with
  | nil => simp
  | cons p ps ih =>
    simp only [List.all_cons, Bool.and_eq_true, Bool.not_eq_true'] at h
    rw [List.cons_append, slAux_cons_nonbreak p _ _ h.1,
      ih (by simpa using h.2)]
    simp

/-- On a boundary-free character list the splitter yields the single
accumulated line (or nothing when there is nothing at all). -/
theorem slAux_all_free (cs : List Char)
    (h : cs.all (fun c => !isLineBreakChar c) = true) (acc : List Char) :
    slAux cs acc =
      if acc.isEmpty && cs.isEmpty then [] else [acc.reverse ++ cs] := by
  induction cs generalizing acc with
  | nil =>
    cases acc with
    | nil => simp [slAux]
    | cons a as => simp [slAux]
  | cons c rest ih =>
    simp only [List.all_cons, Bool.and_eq_true, Bool.not_eq_true'] at h
    rw [slAux_cons_nonbreak c rest acc h.1, ih h.2]
    simp

/-- Splitting the newline-join of boundary-free lines recovers the
lines, provided the final line is nonempty (Python drops a trailing
empty line: `"a\n".splitlines() == ["a"]`). -/
theorem pySplitlines_joinWith (ls : List String) (hne : ls ≠ [])
    (hfree : ∀ l ∈ ls, lineBreakFree l = true)
    (hlast : ls.getLastD "" ≠ "") :
    pySplitlines (joinWith "\n" ls) = ls := by
  induction ls with
  | nil => exact absurd rfl hne
  | cons l rest ih =>
    cases rest with
    | nil =>
      have hfl : l.data.all (fun c => !isLineBreakChar c) = true :=
        hfree l (by simp)
      have hlne : l ≠ "" := by simpa [List.getLastD] using hlast
      have hld : l.data.isEmpty = false := by
        cases hd : l.data with
        | nil =>
          exact absurd (by cases l with | mk d => cases hd; rfl) hlne
        | cons a as => rfl
      simp only [joinWith, pySplitlines]
      rw [slAux_all_free l.data hfl []]
      simp [hld, strMkData]
    | cons l' rest' =>
      have hfl : l.data.all (fun c => !isLineBreakChar c) = true :=
        hfree l (by simp)
      have hstep : (l ++ "\n" ++ joinWith "\n" (l' :: rest')).data =
          l.data ++ ('\n' :: (joinWith "\n" (l' :: rest')).data) := by
        simp [strDataAppend]
      simp only [joinWith, pySplitlines]
      rw [hstep, slAux_append_free l.data hfl _ [], slAux_newline]
      have ihr : pySplitlines (joinWith "\n" (l' :: rest')) = l' :: rest' :=
        ih (by simp) (fun x hx => hfree x (by simp [hx]))
          (by simpa [List.getLastD] using hlast)
      simp only [pySplitlines] at ihr
      simp only [List.append_nil, List.reverse_reverse, List.map_cons, ihr,
        strMkData]

/-! ## Claims C4 and C5 — `unwrap_markdown_block` -/

/-- C4 (counterexample): the claim says a whole-text fence whose opening
fence has NO language tag is also unwrapped.  The code compares the
first line against ```` ```markdown ```` exactly, so the untagged fence
`"```\nhello\n```"` is returned unchanged, not unwrapped to
`"hello"`. -/
theorem unwrap_markdown_block_no_tag_not_unwrapped :
    unwrap_markdown_block "```\nhello\n```" = "```\nhello\n```" ∧
    unwrap_markdown_block "```\nhello\n```" ≠ "hello" := by
  refine ⟨by decide, by decide⟩

/-- C4 (amended): `unwrap_markdown_block` strips the fences exactly of a
whole-text fence whose opening line is ```` ```markdown ```` (the
language tag is mandatory) and whose closing line is ```` ``` ````,
returning the inner lines rejoined; the same whole-text fence with no
language tag passes through unchanged.  `mid` ranges over all possible
inner-line lists (each inner line free of line-boundary characters). -/
theorem unwrap_markdown_block_fences (mid : List String)
    (h : ∀ l ∈ mid, lineBreakFree l = true) :
    unwrap_markdown_block (joinWith "\n" ("```markdown" :: mid ++ ["```"])) =
      joinWith "\n" mid ∧
    unwrap_markdown_block (joinWith "\n" ("```" :: mid ++ ["```"])) =
      joinWith "\n" ("```" :: mid ++ ["```"]) := by
  have hfree1 : ∀ l ∈ ("```markdown" :: mid ++ ["```"]), lineBreakFree l = true := by
    intro l hl
    rcases List.mem_cons.mp hl with rfl | hl2
    · decide
    · rcases List.mem_append.mp hl2 with hm | hs
      · exact h l hm
      · obtain rfl := List.mem_singleton.mp hs
        decide
  have hfree2 : ∀ l ∈ ("```" :: mid ++ ["```"]), lineBreakFree l = true := by
    intro l hl
    rcases List.mem_cons.mp hl with rfl | hl2
    · decide
    · rcases List.mem_append.mp hl2 with hm | hs
      · exact h l hm
      · obtain rfl := List.mem_singleton.mp hs
        decide
  have hlast1 : ("```markdown" :: mid ++ ["```"]).getLastD "" ≠ "" := by
    rw [show ("```markdown" :: mid ++ ["```"]) =
      ("```markdown" :: mid) ++ ["```"] by simp, List.getLastD_concat]
    decide
  have hlast2 : ("```" :: mid ++ ["```"]).getLastD "" ≠ "" := by
    rw [show ("```" :: mid ++ ["```"]) =
      ("```" :: mid) ++ ["```"] by simp, List.getLastD_concat]
    decide
  have hsplit1 := pySplitlines_joinWith ("```markdown" :: mid ++ ["```"])
    (by simp) hfree1 hlast1
  have hsplit2 := pySplitlines_joinWith ("```" :: mid ++ ["```"])
    (by simp) hfree2 hlast2
  have hcond1 : unwrapCond ("```markdown" :: mid ++ ["```"]) = true := by
    simp only [unwrapCond, Bool.and_eq_true, decide_eq_true_eq, beq_iff_eq]
    refine ⟨⟨?_, ?_⟩, ?_⟩
    · simp only [List.length_cons, List.length_append, List.length_singleton]
      omega
    · show pyStrip "```markdown" = "```markdown"
      decide
    · rw [show ("```markdown" :: mid ++ ["```"]) =
        ("```markdown" :: mid) ++ ["```"] by simp, List.getLastD_concat]
      decide
  have hcond2 : unwrapCond ("```" :: mid ++ ["```"]) = false := by
    simp only [unwrapCond, List.headD_cons]
    have hb : (pyStrip "```" == "```markdown") = false := by decide
    simp [hb]
  constructor
  · unfold unwrap_markdown_block
    rw [hsplit1, if_pos hcond1, List.cons_append, List.drop_one,
      List.tail_cons, List.dropLast_concat]
  · unfold unwrap_markdown_block
    rw [hsplit2]
    have hnc : unwrapCond ("```" :: mid ++ ["```"]) ≠ true := by
      rw [hcond2]
      exact Bool.false_ne_true
    rw [if_neg hnc]

/-- C4 (witness): the amended characterization applied to the single
inner line `hello`. -/
theorem unwrap_markdown_block_fences_witness :
    unwrap_markdown_block (joinWith "\n" ("```markdown" :: ["hello"] ++ ["```"])) =
      joinWith "\n" ["hello"] :=
  (unwrap_markdown_block_fences ["hello"] (by decide)).1

/-- C5 (counterexample): `unwrap_markdown_block` is not idempotent.  On
the doubly wrapped text `"```markdown\n```markdown\nfoo\n```\n```"` one
application yields `"```markdown\nfoo\n```"`, which is again a
whole-text markdown fence, so a second application strips it further to
`"foo"`. -/
theorem unwrap_markdown_block_not_idempotent :
    unwrap_markdown_block
        (unwrap_markdown_block "```markdown\n```markdown\nfoo\n```\n```") ≠
      unwrap_markdown_block "```markdown\n```markdown\nfoo\n```\n```" := by
  decide

/-- C5 (amended): `unwrap_markdown_block` is idempotent on every input
whose image is not itself an unwrappable whole-text markdown fence;
equivalently, a second application is the identity as soon as the first
application's result fails the fence guard.  (The counterexample shows
the hypothesis is necessary: nested fences are unwrapped once more per
application.) -/
theorem unwrap_markdown_block_idempotent_unless_nested (x : String)
    (h : unwrapCond (pySplitlines (unwrap_markdown_block x)) = false) :
    unwrap_markdown_block (unwrap_markdown_block x) = unwrap_markdown_block x := by
  conv_lhs => rw [unwrap_markdown_block]
  rw [if_neg (by simp [h])]

/-- C5 (witness): a plain string is a fixed point, and its image fails
the fence guard, so the amended idempotence theorem applies to it. -/
theorem unwrap_markdown_block_idempotent_witness :
    unwrap_markdown_block (unwrap_markdown_block "hello") =
      unwrap_markdown_block "hello" :=
  unwrap_markdown_block_idempotent_unless_nested "hello" (by decide)

/-! ## Scanner invariants -/

/-- The chunks yielded by the scanner loop are exactly the files that
pass all of its filters, in traversal order, regardless of what
warnings are already pending. -/
theorem collectGo_paths (spec : Option (String → Bool)) (bl : List String) :
    ∀ (files : List FileEntry) (pending : List String),
    (collectGo spec bl pending files).1.map (fun p => p.1.path) =
      (files.filter (passesFilters spec bl)).map (fun e => e.rel) := by
  intro files
  induction files with
  | nil => intro pending; simp [collectGo]
  | cons e rest ih =>
    intro pending
    simp only [collectGo, List.filter_cons]
    by_cases h1 : ".git" ∈ e.parts
    · have hp : passesFilters spec bl e = false := by
        simp [passesFilters, h1]
      rw [if_pos h1, hp, if_neg (by simp)]
      exact ih pending
    · rw [if_neg h1]
      by_cases h2 : (!e.isFile || is_ignored spec e.rel) = true
      · have hp : passesFilters spec bl e = false := by
          rcases Bool.or_eq_true_iff.mp h2 with hf | hi
          · simp [passesFilters, Bool.not_eq_true', Bool.not_eq_eq_eq_not] at hf ⊢
            simp [hf]
          · simp [passesFilters, hi]
        rw [if_pos h2, hp, if_neg (by simp)]
        exact ih pending
      · have h2f : (!e.isFile || is_ignored spec e.rel) = false := by
          revert h2
          cases (!e.isFile || is_ignored spec e.rel) <;> simp
        have hfile : e.isFile = true := by
          rcases Bool.or_eq_false_iff.mp h2f with ⟨hf, _⟩
          revert hf
          cases e.isFile <;> simp
        have hig : is_ignored spec e.rel = false :=
          (Bool.or_eq_false_iff.mp h2f).2
        rw [if_neg h2]
        by_cases h3 : bl ≠ [] ∧ pyExt e ∈ bl
        · have hp : passesFilters spec bl e = false := by
            simp [passesFilters, h3]
          rw [if_pos h3, hp, if_neg (by simp)]
          exact ih (pending ++ [blacklistWarning e])
        · rw [if_neg h3]
          cases hr : e.readResult with
          | ok text =>
            have hp : passesFilters spec bl e = true := by
              simp [passesFilters, h1, hfile, hig, h3, hr]
            rw [hp, if_pos (by simp)]
            simp only [List.map_cons]
            rw [ih []]
          | error msg =>
            have hp : passesFilters spec bl e = false := by
              simp [passesFilters, hr]
            rw [hp, if_neg (by simp)]
            exact ih (pending ++ [readWarning e msg])

/-- Every warning the loop ever appends — surfaced or left pending at
the end — is the initial pending list followed by each file's own
contribution, in traversal order. -/
theorem collectGo_warnings (spec : Option (String → Bool)) (bl : List String) :
    ∀ (files : List FileEntry) (pending : List String),
    recordedWarnings (collectGo spec bl pending files) =
      pending ++ files.flatMap (warningsOf spec bl) := by
  intro files
  induction files with
  | nil =>
    intro pending
    simp [collectGo, recordedWarnings, surfacedWarnings]
  | cons e rest ih =>
    intro pending
    simp only [collectGo, List.flatMap_cons, warningsOf]
    by_cases h1 : ".git" ∈ e.parts
    · rw [if_pos h1, if_pos h1, ih pending]
      simp
    · rw [if_neg h1, if_neg h1]
      by_cases h2 : (!e.isFile || is_ignored spec e.rel) = true
      · rw [if_pos h2, if_pos h2, ih pending]
        simp
      · rw [if_neg h2, if_neg h2]
        by_cases h3 : bl ≠ [] ∧ pyExt e ∈ bl
        · rw [if_pos h3, if_pos h3, ih (pending ++ [blacklistWarning e])]
          simp
        · rw [if_neg h3, if_neg h3]
          cases hr : e.readResult with
          | ok text =>
            simp only [recordedWarnings, surfacedWarnings, List.map_cons,
              List.flatten_cons]
            have := ih []
            simp only [recordedWarnings, surfacedWarnings, List.nil_append] at this
            simp [this]
          | error msg =>
            rw [ih (pending ++ [readWarning e msg])]
            simp

/-! ## Claim C6 — blacklisted files: no chunk, warning recorded -/

/-- C6 (amended): for every blacklisted file the scanner yields no
Chunk (the yielded chunks are exactly the filter-passing files, and a
blacklisted file fails the filter), and the blacklist Warning naming
the file and its extension is recorded — but it is delivered to the
caller only bundled with a later yielded chunk; a warning still pending
when the iteration ends is dropped, never surfaced. -/
theorem collect_blacklisted_no_chunk_warning_recorded
    (spec : Option (String → Bool)) (blacklist : List String)
    (files : List FileEntry) (e : FileEntry) (he : e ∈ files)
    (hgit : ".git" ∉ e.parts) (hfile : e.isFile = true)
    (hig : is_ignored spec e.rel = false) (hbl : pyExt e ∈ blacklist) :
    (collect_code_chunks spec blacklist files).1.map (fun p => p.1.path) =
      (files.filter (passesFilters spec blacklist)).map (fun x => x.rel) ∧
    passesFilters spec blacklist e = false ∧
    blacklistWarning e ∈
      recordedWarnings (collect_code_chunks spec blacklist files) := by
  have hblne : blacklist ≠ [] := by
    intro hempty
    rw [hempty] at hbl
    exact absurd hbl (List.not_mem_nil _)
  refine ⟨collectGo_paths spec blacklist files [], ?_, ?_⟩
  · simp [passesFilters, hblne, hbl]
  · rw [collect_code_chunks, collectGo_warnings spec blacklist files []]
    have hw : warningsOf spec blacklist e = [blacklistWarning e] := by
      rw [warningsOf, if_neg hgit]
      have h2 : (!e.isFile || is_ignored spec e.rel) = false := by
        simp [hfile, hig]
      rw [if_neg (by simp [h2]), if_pos ⟨hblne, hbl⟩]
    simp only [List.nil_append]
    exact List.mem_flatMap.mpr ⟨e, he, by simp [hw]⟩

/-- A blacklisted `.txt` file at the scanned root. -/
def bTxtEntry : FileEntry :=
  { parts := ["root", "b.txt"], rel := "b.txt", name := "b.txt",
    isFile := true, display := "root/b.txt", readResult := .ok "some text" }

/-- An ordinary readable Python file at the scanned root. -/
def aPyEntry : FileEntry :=
  { parts := ["root", "a.py"], rel := "a.py", name := "a.py",
    isFile := true, display := "root/a.py", readResult := .ok "print(1)" }

/-- C6 (witness): scanning `[b.txt, a.py]` with blacklist `[".txt"]`
records the blacklist warning for `b.txt` (here it is even surfaced,
since `a.py` yields a chunk afterwards). -/
theorem collect_blacklisted_witness :
    blacklistWarning bTxtEntry ∈
      recordedWarnings (collect_code_chunks none [".txt"] [bTxtEntry, aPyEntry]) :=
  (collect_blacklisted_no_chunk_warning_recorded none [".txt"]
    [bTxtEntry, aPyEntry] bTxtEntry (by decide) (by decide) (by decide)
    (by decide) (by decide)).2.2

/-- C6 (counterexample): the claim requires the warnings surfaced to the
caller over the whole iteration to include the blacklist warning.  When
the blacklisted file is the last entry, no chunk is yielded after it:
the scan yields no chunk for it (correct) but the warning stays in the
generator's local list and is never surfaced — the caller sees no
warnings at all. -/
theorem collect_blacklisted_warning_dropped :
    (collect_code_chunks none [".txt"] [bTxtEntry]).1 = [] ∧
    surfacedWarnings (collect_code_chunks none [".txt"] [bTxtEntry]) = [] ∧
    (collect_code_chunks none [".txt"] [bTxtEntry]).2 =
      [blacklistWarning bTxtEntry] := by
  refine ⟨by decide, by decide, by decide⟩

/-! ## Claim C8 — the concrete scan scenario -/

/-- The `.gitignore` file itself, at the scanned root, containing the
single pattern `*.log`.  Its name starts with its only dot, so
`fp.suffix` is empty and its extension normalizes to the sentinel. -/
def gitignoreEntry : FileEntry :=
  { parts := ["root", ".gitignore"], rel := ".gitignore", name := ".gitignore",
    isFile := true, display := "root/.gitignore", readResult := .ok "*.log" }

/-- The log file the `.gitignore` pattern matches. -/
def cLogEntry : FileEntry :=
  { parts := ["root", "c.log"], rel := "c.log", name := "c.log",
    isFile := true, display := "root/c.log", readResult := .ok "log line" }

/-- Modelled from the pathspec library: the compiled `gitwildmatch`
matcher for the single pattern `*.log` matches exactly the relative
paths whose final component ends in `.log`; for the four root-level
files of the scenario the relative path is the file name itself. -/
def logMatcher : String → Bool :=
  fun rel => leadsWith ".log".data.reverse rel.data.reverse

/-- The scenario's root directory in traversal order: `a.py`, `b.txt`,
`.gitignore` (content `*.log`), `c.log`; scanned with blacklist
`[".txt"]`. -/
def scenarioFiles : List FileEntry :=
  [aPyEntry, bTxtEntry, gitignoreEntry, cLogEntry]

/-- C8 (counterexample): the claim predicts exactly one Chunk (`a.py`)
and exactly two Warnings.  The scan actually yields two Chunks — `a.py`
and `.gitignore` itself, whose extension is the sentinel
`(no extension)`, not blacklisted — and surfaces exactly one Warning
(the blacklist skip for `b.txt`). -/
theorem scenario_scan_refutes_counts :
    ¬((collect_code_chunks (some logMatcher) [".txt"] scenarioFiles).1.length = 1 ∧
      (surfacedWarnings
        (collect_code_chunks (some logMatcher) [".txt"] scenarioFiles)).length = 2) := by
  decide

/-- C8 (amended): scanning the scenario directory with blacklist
`[".txt"]` yields exactly two Chunks — `a.py` and `.gitignore` (the
ignore file itself has no extension, hence is not blacklisted, and
`*.log` does not match it) — and exactly one Warning, the blacklist
skip for `b.txt`, surfaced together with the `.gitignore` chunk that
follows it; `c.log` is excluded silently by the ignore matcher, and
nothing is left pending at the end. -/
theorem scenario_scan_result :
    (collect_code_chunks (some logMatcher) [".txt"] scenarioFiles).1 =
      [({ path := "a.py", content := "print(1)" }, []),
       ({ path := ".gitignore", content := "*.log" },
        [blacklistWarning bTxtEntry])] ∧
    (collect_code_chunks (some logMatcher) [".txt"] scenarioFiles).2 = [] := by
  refine ⟨by decide, by decide⟩

/-! ## Claim C9 — `.git` exclusion -/

/-- A file inside the repository's `.git` control directory; its
extension is `.sample`. -/
def gitSampleEntry : FileEntry :=
  { parts := ["root", ".git", "hooks", "x.sample"],
    rel := ".git/hooks/x.sample", name := "x.sample", isFile := true,
    display := "root/.git/hooks/x.sample", readResult := .ok "" }

/-- The chunk loop never inspects a file under `.git`: dropping those
files from the traversal leaves the entire result — chunks, attached
warnings and leftover pending warnings — unchanged, whatever the ignore
rules and blacklist. -/
theorem collectGo_git_filtered (spec : Option (String → Bool))
    (bl : List String) :
    ∀ (files : List FileEntry) (pending : List String),
    collectGo spec bl pending files =
      collectGo spec bl pending
        (files.filter (fun e => !decide (".git" ∈ e.parts))) := by
  intro files
  induction files with
  | nil => intro pending; rfl
  | cons e rest ih =>
    intro pending
    by_cases h1 : ".git" ∈ e.parts
    · rw [show (e :: rest).filter (fun e => !decide (".git" ∈ e.parts)) =
        rest.filter (fun e => !decide (".git" ∈ e.parts)) by
          simp [List.filter_cons, h1]]
      simp only [collectGo]
      rw [if_pos h1]
      exact ih pending
    · rw [show (e :: rest).filter (fun e => !decide (".git" ∈ e.parts)) =
        e :: rest.filter (fun e => !decide (".git" ∈ e.parts)) by
          simp [List.filter_cons, h1]]
      simp only [collectGo]
      rw [if_neg h1, if_neg h1]
      by_cases h2 : (!e.isFile || is_ignored spec e.rel) = true
      · rw [if_pos h2, if_pos h2]
        exact ih pending
      · rw [if_neg h2, if_neg h2]
        by_cases h3 : bl ≠ [] ∧ pyExt e ∈ bl
        · rw [if_pos h3, if_pos h3]
          exact ih (pending ++ [blacklistWarning e])
        · rw [if_neg h3, if_neg h3]
          cases hr : e.readResult with
          | ok text => rw [ih []]
          | error msg => exact ih (pending ++ [readWarning e msg])

/-- C9 (amended): files under the `.git` control directory never yield
Chunks — the scan of any traversal equals the scan with all `.git`
files removed, regardless of ignore rules and blacklist — but the
distinct-extensions query does NOT exclude `.git`: it filters only by
the ignore rules, so with no `.gitignore` present the extension
`.sample` of a file under `.git` appears in its sorted output. -/
theorem git_excluded_from_chunks_not_extensions
    (spec : Option (String → Bool)) (bl : List String)
    (files : List FileEntry) :
    collect_code_chunks spec bl files =
      collect_code_chunks spec bl
        (files.filter (fun e => !decide (".git" ∈ e.parts))) ∧
    find_extensions none [gitSampleEntry] = [".sample"] :=
  ⟨collectGo_git_filtered spec bl files [], by decide⟩

/-- C9 (counterexample): the claim says the extension of a file under
`.git` never contributes to the distinct-extensions query.
`find_extensions` applies only the ignore filter, so `.sample` from
`.git/hooks/x.sample` does appear in its result (while the chunk scan
of the same file yields nothing). -/
theorem git_extension_contributes_to_find_extensions :
    ".git" ∈ gitSampleEntry.parts ∧
    ".sample" ∈ find_extensions none [gitSampleEntry] ∧
    (collect_code_chunks none [] [gitSampleEntry]).1 = [] := by
  refine ⟨by decide, by decide, by decide⟩

/-! ## Claim C7 — cache-artifact naming -/

/-- C7 (counterexample): the claim asserts no two distinct chunks share
a cache file.  The sanitizer maps both `/` and `.` to `_`, so the
distinct relative paths `a/b` and `a.b` produce the same cache artifact
name `a_b.md` — two distinct chunks overwrite one another's cache
file. -/
theorem cache_doc_name_collision :
    cache_doc_name "a/b" = cache_doc_name "a.b" ∧ ("a/b" : String) ≠ "a.b" := by
  refine ⟨by decide, by decide⟩

/-- Replacing `/` by `_` and then `.` by `_` is injective on characters
that are neither `.` nor `_`, lifted to lists. -/
theorem mapSlugInj :
    ∀ (p q : List Char), (∀ c ∈ p, c ≠ '.' ∧ c ≠ '_') →
    (∀ c ∈ q, c ≠ '.' ∧ c ≠ '_') →
    ((p.map fun c => if c = '/' then '_' else c).map
        fun c => if c = '.' then '_' else c) =
      ((q.map fun c => if c = '/' then '_' else c).map
        fun c => if c = '.' then '_' else c) →
    p = q := by
  intro p
  induction p with
  | nil =>
    intro q _ _ h
    cases q with
    | nil => rfl
    | cons b bs => simp at h
  | cons a as ih =>
    intro q hp hq h
    cases q with
    | nil => simp at h
    | cons b bs =>
      simp only [List.map_cons, List.cons.injEq] at h
      obtain ⟨hhead, htail⟩ := h
      have ha := hp a (by simp)
      have hb := hq b (by simp)
      have hab : a = b := by
        by_cases ha' : a = '/'
        · by_cases hb' : b = '/'
          · rw [ha', hb']
          · rw [ha'] at hhead
            simp only [if_pos rfl] at hhead
            rw [if_neg (by decide), if_neg hb', if_neg hb.1] at hhead
            exact absurd hhead.symm hb.2
        · by_cases hb' : b = '/'
          · rw [hb'] at hhead
            simp only [if_pos rfl] at hhead
            rw [if_neg ha', if_neg ha.1, if_neg (by decide)] at hhead
            exact absurd hhead ha.2
          · rw [if_neg ha', if_neg ha.1, if_neg hb', if_neg hb.1] at hhead
            exact hhead
      rw [hab]
      have htl : as = bs :=
        ih bs (fun c hc => hp c (List.mem_cons_of_mem _ hc))
          (fun c hc => hq c (List.mem_cons_of_mem _ hc)) htail
      rw [htl]

/-- C7 (amended): each chunk's cache artifact is named by replacing path
separators and dots in the chunk's relative path with underscores and
suffixing `.md`; this naming is injective — one cache file per chunk —
for chunks whose relative paths contain neither dots nor underscores,
but distinct paths differing only in `/` versus `.` (or containing
literal underscores) can collide onto the same cache file. -/
theorem cache_doc_name_injective_on_plain_paths (p q : String)
    (hp : ∀ c ∈ p.data, c ≠ '.' ∧ c ≠ '_')
    (hq : ∀ c ∈ q.data, c ≠ '.' ∧ c ≠ '_')
    (heq : cache_doc_name p = cache_doc_name q) : p = q := by
  have hdata : ((p.data.map fun c => if c = '/' then '_' else c).map
        fun c => if c = '.' then '_' else c) ++ ".md".data =
      ((q.data.map fun c => if c = '/' then '_' else c).map
        fun c => if c = '.' then '_' else c) ++ ".md".data :=
    congrArg String.data heq
  have h2 := List.append_cancel_right hdata
  have h3 := mapSlugInj p.data q.data hp hq h2
  have h4 := congrArg String.mk h3
  rwa [strMkData, strMkData] at h4

/-- C7 (witness): the injectivity theorem applied to the concrete
dot-free, underscore-free path `src/main`. -/
theorem cache_doc_name_injective_witness :
    (∀ c ∈ ("src/main" : String).data, c ≠ '.' ∧ c ≠ '_') ∧
    ("src/main" : String) = "src/main" :=
  ⟨by decide,
   cache_doc_name_injective_on_plain_paths "src/main" "src/main"
     (by decide) (by decide) rfl⟩

/-! ## Claim C3 — admission control in the orchestrator -/

/-- A filesystem with no prior artifacts (so every merge instruction is
the fresh persona). -/
def emptyFS : FS :=
  { pathExists := fun _ => false
    readText := fun _ => ""
    within := fun _ _ => false }

/-- A Generation Gateway stub returning a fixed summary for every
call. -/
def constGateway : String → String → String := fun _ _ => "SUMMARY"

/-- A minimal validated configuration: one provider/model pair with a
known finite registered window, one requested document type. -/
def oneChunkConfig : Config :=
  { provider := "OpenAI"
    model := "gpt-4o"
    code_path := "root"
    output_dir := "out"
    blacklist := []
    doc_types := ["Readme"]
    custom_instructions := "" }

/-- C3 (code evaluation): the claim says that before each Generation
Gateway call, in both stages, the combined instruction-and-prompt token
count is checked against the model's context window, with over-budget
units skipped and reported.  The orchestrator performs no such check at
all: on a run with one chunk and one document type, the trace contains
two gateway calls (one per stage) and not a single Token Budget Oracle
consultation — `check_context_window` is imported by the CLI but never
called, so no generation call can ever be suppressed by a token-budget
comparison. -/
theorem generate_from_config_never_checks_budget :
    (generate_from_config emptyFS constGateway none oneChunkConfig
        [aPyEntry]).map
      (fun evs => (evs.countP Ev.isGenCall, evs.countP Ev.isBudgetCheck)) =
      .ok (2, 0) := by
  decide
